import Mathlib

/-!
# Verification of the Aave TVL reporting script

A shallow embedding of the numeric core of `src/aave_test1.py`:

* `calculate_total_tvl` — decodes the base-currency metadata, then folds
  over the reserve records, isolating per-record failures;
* the response-shape validation performed by `get_aave_reserves_data`.

Modelling conventions:

* Decoded on-chain values are `Val` — an integer, a boolean or a string
  (the three kinds of value the contract decode produces at the positions
  the script reads).  Python treats booleans as the integers 0/1 in
  arithmetic and comparisons; arithmetic on a string raises `TypeError`,
  while `float()` applied to a string parses it as a float literal
  (raising `ValueError` when it is not one), which is modelled by
  `pyFloatOfString`.
* Python `float` arithmetic is modelled with exact rationals `ℚ`; true
  division always produces a "float", i.e. lands in `ℚ`.
* Tuple indexing `x[k]` is `List.getElem?`; a missing index is a raised
  `IndexError`.
* A raised exception is an `Except.error`.  Inside the per-record loop the
  script catches every exception, so a record is processed to a
  `RecordOutcome` rather than an error; only the base-currency decode,
  which runs outside the `try`, can abort the reducer.
-/

namespace AaveTvl

/-- A decoded on-chain value as the script sees it: an (unbounded) Python
integer, a boolean, or a string. -/
inductive Val where
  | i (z : ℤ)
  | b (tb : Bool)
  | s (str : String)
deriving DecidableEq

/-- Python truthiness of a decoded value (`not x` / `if x` in the script):
nonzero integers, `True`, and non-empty strings are truthy. -/
def Val.truthy : Val → Bool
  | .i z => z ≠ 0
  | .b tb => tb
  | .s str => str ≠ ""

/-- Numeric coercion used by Python arithmetic (`*`, `/`): integers are
themselves, booleans are 0/1, strings raise a `TypeError` (`none`) — even
strings that look numeric, since Python never coerces `str` in
arithmetic. -/
def Val.toNum : Val → Option ℚ
  | .i z => some (z : ℚ)
  | .b tb => some (if tb then 1 else 0)
  | .s _ => none

/-- Integer coercion used by the exponent position of `10 ** d`:
integers are themselves, booleans are 0/1, strings raise (`none`). -/
def Val.toInt : Val → Option ℤ
  | .i z => some z
  | .b tb => some (if tb then 1 else 0)
  | .s _ => none

/-- The ASCII whitespace characters `float()` strips from both ends of a
string (space, tab, newline, carriage return, vertical tab, form feed). -/
def isPyWs (c : Char) : Bool :=
  c = ' ' || c = '\t' || c = '\n' || c = '\r' || c = Char.ofNat 11 || c = Char.ofNat 12

/-- Continuation of a decimal digit run in a Python float literal: after
the leading digit, every character is a digit or an underscore standing
strictly between two digits (CPython's digit-separator rule). -/
def digitsTail : List Char → Bool
  | [] => true
  | '_' :: c :: rest => c.isDigit && digitsTail rest
  | c :: rest => c.isDigit && digitsTail rest

/-- A valid digit part of a Python float literal: non-empty, beginning
with a digit, underscores only between digits. -/
def digitsOk : List Char → Bool
  | [] => false
  | c :: rest => c.isDigit && digitsTail rest

/-- The natural number denoted by a digit run, underscores ignored. -/
def digitVal (l : List Char) : ℕ :=
  (l.filter (fun c => c ≠ '_')).foldl (fun a c => 10 * a + (c.toNat - 48)) 0

/-- The number of digits in a digit run, underscores ignored. -/
def fracLen (l : List Char) : ℕ :=
  (l.filter (fun c => c ≠ '_')).length

/-- Python's `float()` applied to a string, for the ASCII decimal literal
forms: optional surrounding whitespace, an optional sign, an integer part
and/or a fractional part in decimal digits (underscores permitted between
digits, as in CPython), and an optional `e`/`E` exponent with optional
sign.  The exact rational value of the literal is returned (`ValueError`
is `none`).  Two deliberate limits of the exact-rational idealization of
floats used throughout: the non-finite literals (`inf`, `infinity`,
`nan`) and non-ASCII digit or whitespace forms are not modelled, and a
literal beyond double range keeps its exact rational value instead of
saturating or flushing to zero. -/
def pyFloatOfString (s : String) : Option ℚ :=
  let t := ((s.data.dropWhile isPyWs).reverse.dropWhile isPyWs).reverse
  let sgn : ℚ := match t with
    | '-' :: _ => -1
    | _ => 1
  let u : List Char := match t with
    | '+' :: r => r
    | '-' :: r => r
    | _ => t
  let mant := u.takeWhile (fun c => c ≠ 'e' && c ≠ 'E')
  let erest := u.dropWhile (fun c => c ≠ 'e' && c ≠ 'E')
  let ip := mant.takeWhile (fun c => c ≠ '.')
  let fp : List Char := match mant.dropWhile (fun c => c ≠ '.') with
    | '.' :: f => f
    | _ => []
  if (ip.isEmpty || digitsOk ip) && (fp.isEmpty || digitsOk fp)
      && !(ip.isEmpty && fp.isEmpty) then
    let mantVal : ℚ :=
      ((digitVal ip : ℚ) * (10 : ℚ) ^ fracLen fp + (digitVal fp : ℚ))
        / (10 : ℚ) ^ fracLen fp
    match erest with
    | [] => some (sgn * mantVal)
    | _ :: etail =>
      let esgn : ℤ := match etail with
        | '-' :: _ => -1
        | _ => 1
      let ed : List Char := match etail with
        | '+' :: r => r
        | '-' :: r => r
        | _ => etail
      if digitsOk ed then
        some (sgn * mantVal * (10 : ℚ) ^ (esgn * (digitVal ed : ℤ)))
      else none
  else none

/-- Python's `float()` on a decoded value: integers are themselves,
booleans are 0/1, and a string is parsed as a float literal. -/
def Val.pyFloat : Val → Option ℚ
  | .i z => some (z : ℚ)
  | .b tb => some (if tb then 1 else 0)
  | .s str => pyFloatOfString str

/-- The Python comparison `x == 0`, which never raises: it is `True` for
the integer 0 and for `False` (booleans compare as integers), and `False`
for every string. -/
def Val.pyEqZero : Val → Bool
  | .i z => z = 0
  | .b tb => !tb
  | .s _ => false

/-- The Python comparison `x > 0`: decided for numbers (booleans compare
as 0/1), a raised `TypeError` (`none`) for strings. -/
def Val.gtZero : Val → Option Bool
  | .i z => some (decide (0 < z))
  | .b tb => some tb
  | .s _ => none

/-- An exception escaping `calculate_total_tvl` (raised outside the
per-record `try`): `IndexError` from indexing `base_currency_info`, or a
`TypeError`/`ValueError` from comparing or converting a non-numeric
decoded field. -/
inductive TvlError where
  | indexError
  | typeError
deriving DecidableEq

/-- The fate of one reserve record inside the loop of
`calculate_total_tvl`:

* `contrib v` — processed successfully, adding `v` to the total;
* `skippedIneligible` — the `not is_active or is_frozen` gate fired
  (`continue`, not a failure);
* `skippedZeroUnit` — the `market_ref_currency_unit == 0` guard fired
  (`continue`, logged, the division by the unit is never performed);
* `failed` — an exception (IndexError on a truncated record, TypeError on
  a non-numeric field, ...) was caught by the `except` handlers and the
  record was skipped. -/
inductive RecordOutcome where
  | contrib (v : ℚ)
  | skippedIneligible
  | skippedZeroUnit
  | failed
deriving DecidableEq

/-- The amount a record outcome adds to the running total: its value for a
processed record, 0 for every kind of skip. -/
def RecordOutcome.value : RecordOutcome → ℚ
  | .contrib v => v
  | _ => 0

/-- The base-currency data the script decodes before the loop:
`market_ref_currency_unit` (kept as a raw value, only used inside the
per-record `try`) and `market_ref_currency_price_in_usd` (already
converted to a float by the branch on `price_decimals`). -/
structure TvlDecoded where
  unit : Val
  priceInUsd : ℚ
deriving DecidableEq

/-- Python tuple indexing `l[k]` for a non-negative literal `k`: the
element, or a raised `IndexError`. -/
def pyIndex (l : List Val) (k : Nat) : Except TvlError Val :=
  match l[k]? with
  | some v => .ok v
  | none => .error .indexError

/-- The pre-loop decode of `base_currency_info` in `calculate_total_tvl`
(source lines 77–84): read positions 0, 1 and 3, then

    if price_decimals > 0:
        price = raw / (10 ** price_decimals)
    else:
        price = float(raw)

The division coerces with `Val.toNum` (a string operand is a `TypeError`)
while the `float()` cast uses `Val.pyFloat` (a string is parsed as a
float literal).  Any failure here is NOT caught inside
`calculate_total_tvl`. -/
def decodeBase (bci : List Val) : Except TvlError TvlDecoded := do
  let unit ← pyIndex bci 0
  let rawPrice ← pyIndex bci 1
  let pdV ← pyIndex bci 3
  match pdV.gtZero with
  | none => .error .typeError
  | some true =>
    match rawPrice.toNum, pdV.toInt with
    | some r, some p => .ok ⟨unit, r / (10 : ℚ) ^ p⟩
    | _, _ => .error .typeError
  | some false =>
    match rawPrice.pyFloat with
    | some r => .ok ⟨unit, r⟩
    | none => .error .typeError

/-- The body of the per-record `try` block (source lines 93–130), as a
function of the seven positional reads it performs.  If any read raised
`IndexError`, or any arithmetic step raised `TypeError`, the record is
`failed` (the script catches the exception and skips the record).  The
debt field at position 21 is read but never used in the computation. -/
def processFields (unit : Val) (priceInUsd : ℚ) :
    Option Val → Option Val → Option Val → Option Val →
    Option Val → Option Val → Option Val → RecordOutcome
  | some _sym, some vDec, some vAct, some vFroz, some vLiq, some _vDebt, some vPrice =>
    if !vAct.truthy || vFroz.truthy then
      .skippedIneligible
    else
      match vDec.toInt, vLiq.toNum with
      | some d, some liq =>
        let normalized := liq / (10 : ℚ) ^ d
        if unit.pyEqZero then
          .skippedZeroUnit
        else
          match vPrice.toNum, unit.toNum with
          | some price, some u => .contrib (normalized * price / u * priceInUsd)
          | _, _ => .failed
      | _, _ => .failed
  | _, _, _, _, _, _, _ => .failed

/-- One iteration of the reserve loop: read `reserve[2]`, `[3]`, `[10]`,
`[11]`, `[20]`, `[21]`, `[22]` and run the `try` body on them. -/
def processReserve (unit : Val) (priceInUsd : ℚ) (r : List Val) : RecordOutcome :=
  processFields unit priceInUsd r[2]? r[3]? r[10]? r[11]? r[20]? r[21]? r[22]?

/-- The running total of the loop: `total_tvl_in_usd` starts at 0.0 and
each record adds its outcome's value, in input order. -/
def tvlFold (unit : Val) (priceInUsd : ℚ) (reserves_data : List (List Val)) : ℚ :=
  reserves_data.foldl (fun acc r => acc + (processReserve unit priceInUsd r).value) 0

/-- `calculate_total_tvl` (source lines 69–136): decode the base-currency
info (failures propagate), then fold the reserves, returning the
accumulated float total. -/
def calculate_total_tvl (reserves_data : List (List Val))
    (base_currency_info : List Val) : Except TvlError ℚ :=
  match decodeBase base_currency_info with
  | .error e => .error e
  | .ok d => .ok (tvlFold d.unit d.priceInUsd reserves_data)

/-- The fatal error of the response-shape validation in
`get_aave_reserves_data`. -/
inductive FetchError where
  | schemaMismatch
deriving DecidableEq

/-- The response-shape validation of `get_aave_reserves_data` (source
lines 59–62): an ordered structure of exactly two elements is split into
`(reserves_data, base_currency_info)`; any other length is a fatal
schema-mismatch error. -/
def validateReservesResponse {α : Type} (result : List α) :
    Except FetchError (α × α) :=
  match result with
  | [a, b] => .ok (a, b)
  | _ => .error .schemaMismatch

/-- A well-formed reserve record with the fields the reducer reads placed
at their source positions (2: symbol, 3: decimals, 10: active, 11: frozen,
20: available liquidity, 21: total scaled variable debt, 22: price in
market reference currency); the positions the reducer never touches are
filled with the integer 0. -/
def mkReserve (sym : String) (dec : ℤ) (act froz : Bool)
    (liq debt price : ℤ) : List Val :=
  [.i 0, .i 0, .s sym, .i dec, .i 0, .i 0, .i 0, .i 0, .i 0, .i 0,
   .b act, .b froz, .i 0, .i 0, .i 0, .i 0, .i 0, .i 0, .i 0, .i 0,
   .i liq, .i debt, .i price]

/-- A well-formed 4-tuple of base-currency info: position 0 the market
reference currency unit, position 1 the raw USD price, position 2 unused,
position 3 the price decimals. -/
def mkBase (unit rawPrice pd : ℤ) : List Val :=
  [.i unit, .i rawPrice, .i 0, .i pd]

/-- The USD price of the reference currency as computed by the branch on
`price_decimals` for integer inputs. -/
def refPriceInUsd (rawPrice pd : ℤ) : ℚ :=
  if 0 < pd then (rawPrice : ℚ) / (10 : ℚ) ^ pd else (rawPrice : ℚ)

/-! ### Basic lemmas about the fold -/

/-- Folding the loop body from an arbitrary starting total shifts the
result by that start. -/
lemma tvlFold_from (u : Val) (p : ℚ) (rs : List (List Val)) (a : ℚ) :
    rs.foldl (fun acc r => acc + (processReserve u p r).value) a
      = a + tvlFold u p rs := by
  induction rs generalizing a with
  | nil => simp [tvlFold]
  | cons r rs ih =>
    simp only [tvlFold, List.foldl_cons]
    rw [ih, ih ((0 : ℚ) + (processReserve u p r).value)]
    ring

lemma tvlFold_nil (u : Val) (p : ℚ) : tvlFold u p [] = 0 := rfl

lemma tvlFold_cons (u : Val) (p : ℚ) (r : List Val) (rs : List (List Val)) :
    tvlFold u p (r :: rs) = (processReserve u p r).value + tvlFold u p rs := by
  calc tvlFold u p (r :: rs)
      = rs.foldl (fun acc x => acc + (processReserve u p x).value)
          (0 + (processReserve u p r).value) := rfl
    _ = (0 + (processReserve u p r).value) + tvlFold u p rs := tvlFold_from u p rs _
    _ = (processReserve u p r).value + tvlFold u p rs := by ring

lemma tvlFold_append (u : Val) (p : ℚ) (l1 l2 : List (List Val)) :
    tvlFold u p (l1 ++ l2) = tvlFold u p l1 + tvlFold u p l2 := by
  induction l1 with
  | nil => simp [tvlFold_nil]
  | cons r rs ih => simp [tvlFold_cons, ih]; ring

/-- Inserting one record in the middle of the list adds exactly that
record's outcome value to the total. -/
lemma tvlFold_middle (u : Val) (p : ℚ) (pre post : List (List Val)) (r : List Val) :
    tvlFold u p (pre ++ r :: post)
      = tvlFold u p (pre ++ post) + (processReserve u p r).value := by
  rw [tvlFold_append, tvlFold_cons, tvlFold_append]
  ring

lemma calculate_total_tvl_ok (rs : List (List Val)) (bci : List Val)
    (d : TvlDecoded) (h : decodeBase bci = .ok d) :
    calculate_total_tvl rs bci = .ok (tvlFold d.unit d.priceInUsd rs) := by
  simp [calculate_total_tvl, h]

lemma calculate_total_tvl_err (rs : List (List Val)) (bci : List Val)
    (e : TvlError) (h : decodeBase bci = .error e) :
    calculate_total_tvl rs bci = .error e := by
  simp [calculate_total_tvl, h]

/-! ### The debt field is read but never used -/

/-- The `try` body only checks that the debt read succeeded; its payload
never enters the computation. -/
lemma processFields_debt_payload (u : Val) (p : ℚ)
    (o2 o3 o10 o11 o20 o22 : Option Val) (v w : Val) :
    processFields u p o2 o3 o10 o11 o20 (some v) o22
      = processFields u p o2 o3 o10 o11 o20 (some w) o22 := by
  cases o2 <;> cases o3 <;> cases o10 <;> cases o11 <;> cases o20 <;> cases o22 <;> rfl

/-- Overwriting position 21 of a record does not change how the loop body
processes it. -/
lemma processReserve_set21 (u : Val) (p : ℚ) (r : List Val) (v : Val) :
    processReserve u p (r.set 21 v) = processReserve u p r := by
  by_cases h21 : 21 < r.length
  · have hk : ∀ k, k ≠ 21 → (r.set 21 v)[k]? = r[k]? := by
      intro k hk
      exact List.getElem?_set_ne (by omega)
    unfold processReserve
    rw [hk 2 (by omega), hk 3 (by omega), hk 10 (by omega), hk 11 (by omega),
      hk 20 (by omega), hk 22 (by omega), List.getElem?_set_self h21,
      List.getElem?_eq_getElem h21]
    exact processFields_debt_payload _ _ _ _ _ _ _ _ _ _
  · rw [List.set_eq_of_length_le (by omega)]

/-- Replacing the record at any position by the same record with its debt
field overwritten leaves every fold total unchanged. -/
lemma tvlFold_set_debt (u : Val) (p : ℚ) (rs : List (List Val)) (i : Nat)
    (r : List Val) (v : Val) :
    tvlFold u p (rs.set i (r.set 21 v)) = tvlFold u p (rs.set i r) := by
  induction rs generalizing i with
  | nil => rfl
  | cons hd tl ih =>
    cases i with
    | zero => simp [List.set_cons_zero, tvlFold_cons, processReserve_set21]
    | succ n => simp [List.set_cons_succ, tvlFold_cons, ih]

/-! ### The zero-unit guard -/

/-- When the decoded unit compares equal to 0 (`unit == 0` in Python), no
record can reach the division by the unit, so every outcome is worth 0. -/
lemma value_eq_zero_of_unit_zero (u : Val) (hu : u.pyEqZero = true)
    (p : ℚ) (r : List Val) :
    (processReserve u p r).value = 0 := by
  unfold processReserve processFields
  cases r[2]? <;> cases r[3]? <;> cases r[10]? <;> cases r[11]? <;>
    cases r[20]? <;> cases r[21]? <;> cases r[22]? <;> try rfl
  simp only [hu]
  split
  · rfl
  · split <;> rfl

lemma tvlFold_eq_zero_of_unit_zero (u : Val) (hu : u.pyEqZero = true)
    (p : ℚ) (rs : List (List Val)) :
    tvlFold u p rs = 0 := by
  induction rs with
  | nil => rfl
  | cons r tl ih => rw [tvlFold_cons, ih, value_eq_zero_of_unit_zero u hu]; ring

/-! ### Decoding well-formed inputs -/

lemma decodeBase_mkBase (unit rawPrice pd : ℤ) :
    decodeBase (mkBase unit rawPrice pd)
      = .ok ⟨.i unit, refPriceInUsd rawPrice pd⟩ := by
  by_cases h : 0 < pd <;>
    simp [decodeBase, mkBase, pyIndex, Val.gtZero, Val.toNum, Val.toInt,
      Val.pyFloat, refPriceInUsd, bind, Except.bind, h]

/-- An eligible, well-formed record with a nonzero integer unit is
processed to exactly the two-multiplication contribution of the source. -/
lemma processReserve_mkReserve_elig (unit : ℤ) (hun : unit ≠ 0) (p : ℚ)
    (sym : String) (dec liq debt price : ℤ) :
    processReserve (Val.i unit) p (mkReserve sym dec true false liq debt price)
      = .contrib ((liq : ℚ) / (10 : ℚ) ^ dec * (price : ℚ) / (unit : ℚ) * p) := by
  simp [processReserve, mkReserve, processFields, Val.truthy, Val.toInt,
    Val.toNum, Val.pyEqZero, hun]

/-- An eligible, well-formed record under the integer unit 0 hits the
zero-unit guard. -/
lemma processReserve_mkReserve_zeroUnit (p : ℚ) (sym : String)
    (dec liq debt price : ℤ) :
    processReserve (Val.i 0) p (mkReserve sym dec true false liq debt price)
      = .skippedZeroUnit := by
  simp [processReserve, mkReserve, processFields, Val.truthy, Val.toInt,
    Val.toNum, Val.pyEqZero]

/-- The success of `calculate_total_tvl` is exactly the success of the
pre-loop decode: the fold never raises. -/
lemma calculate_ok_iff_decode (rs : List (List Val)) (bci : List Val) :
    (∃ q, calculate_total_tvl rs bci = .ok q)
      ↔ (∃ d, decodeBase bci = .ok d) := by
  cases h : decodeBase bci <;> simp [calculate_total_tvl, h]

/-- A base-currency info of fewer than four positions fails one of the
three positional reads of the decode with an `IndexError`. -/
lemma decodeBase_short (bci : List Val) (hlen : bci.length < 4) :
    decodeBase bci = .error .indexError := by
  rcases bci with _ | ⟨v0, _ | ⟨v1, _ | ⟨v2, _ | ⟨v3, rest⟩⟩⟩⟩
  · rfl
  · rfl
  · rfl
  · rfl
  · simp only [List.length_cons] at hlen
    omega

/-- A base-currency info whose raw USD price (position 1) and price
decimals (position 3) hold genuinely numeric (non-string) content decodes
without raising, whatever sits at the other positions. -/
lemma decodeBase_ok_of_numeric (v0 v1 v2 v3 : Val) (rest : List Val)
    (h1 : v1.toNum.isSome = true) (h3 : v3.toNum.isSome = true) :
    ∃ d, decodeBase (v0 :: v1 :: v2 :: v3 :: rest) = .ok d := by
  cases v3 with
  | i z =>
    by_cases hz : 0 < z
    · have hg : Val.gtZero (Val.i z) = some true := by simp [Val.gtZero, hz]
      cases v1 <;>
        simp_all [decodeBase, pyIndex, bind, Except.bind,
          Val.toNum, Val.toInt, Val.pyFloat, hg]
    · have hg : Val.gtZero (Val.i z) = some false := by simp [Val.gtZero, hz]
      cases v1 <;>
        simp_all [decodeBase, pyIndex, bind, Except.bind,
          Val.toNum, Val.toInt, Val.pyFloat, hg]
  | b tb =>
    cases tb <;> cases v1 <;>
      simp_all [decodeBase, pyIndex, bind, Except.bind, Val.gtZero,
        Val.toNum, Val.toInt, Val.pyFloat]
  | s str =>
    simp [Val.toNum] at h3

/-! ### The claims -/

/-- C1: each eligible (active, not frozen) reserve contributes from
`availableLiquidity` only.  (a) The returned total is unchanged when
position 21 (`totalScaledVariableDebt`) of any record is overwritten,
everything else held fixed.  (b) An eligible well-formed record
contributes exactly
`availableLiquidity / 10 ^ assetDecimals * priceInMarketReferenceCurrency
/ marketReferenceCurrencyUnit * priceInUsd` to the returned total. -/
theorem tvl_ignores_variable_debt :
    (∀ (reserves : List (List Val)) (bci : List Val) (i : Nat)
        (r : List Val) (v : Val), 21 < r.length →
        calculate_total_tvl (reserves.set i (r.set 21 v)) bci
          = calculate_total_tvl (reserves.set i r) bci)
    ∧ (∀ (pre post : List (List Val)) (sym : String)
        (dec liq debt price unit rawPrice pd : ℤ), unit ≠ 0 →
        calculate_total_tvl
            (pre ++ mkReserve sym dec true false liq debt price :: post)
            (mkBase unit rawPrice pd)
          = Except.map
              (fun t => t + (liq : ℚ) / (10 : ℚ) ^ dec * (price : ℚ)
                / (unit : ℚ) * refPriceInUsd rawPrice pd)
              (calculate_total_tvl (pre ++ post) (mkBase unit rawPrice pd))) := by
  constructor
  · intro reserves bci i r v _h
    cases hd : decodeBase bci with
    | error e =>
      rw [calculate_total_tvl_err _ _ _ hd, calculate_total_tvl_err _ _ _ hd]
    | ok d =>
      rw [calculate_total_tvl_ok _ _ _ hd, calculate_total_tvl_ok _ _ _ hd,
        tvlFold_set_debt]
  · intro pre post sym dec liq debt price unit rawPrice pd hunit
    rw [calculate_total_tvl_ok _ _ _ (decodeBase_mkBase unit rawPrice pd),
      calculate_total_tvl_ok _ _ _ (decodeBase_mkBase unit rawPrice pd)]
    simp only [Except.map, tvlFold_middle,
      processReserve_mkReserve_elig unit hunit, RecordOutcome.value]

/-- Witness for C1, at one record of liquidity 1, debt 2 overwritten by 9,
price 3, unit 1. -/
theorem tvl_ignores_variable_debt_witness :
    calculate_total_tvl
        ([mkReserve "A" 0 true false 1 2 3].set 0
          ((mkReserve "A" 0 true false 1 2 3).set 21 (Val.i 9)))
        (mkBase 1 1 0)
      = calculate_total_tvl
          ([mkReserve "A" 0 true false 1 2 3].set 0 (mkReserve "A" 0 true false 1 2 3))
          (mkBase 1 1 0)
    ∧ calculate_total_tvl ([] ++ mkReserve "A" 0 true false 1 2 3 :: [])
        (mkBase 1 1 0)
      = Except.map
          (fun t => t + (1 : ℚ) / (10 : ℚ) ^ (0 : ℤ) * (3 : ℚ) / (1 : ℚ)
            * refPriceInUsd 1 0)
          (calculate_total_tvl ([] ++ []) (mkBase 1 1 0)) :=
  ⟨tvl_ignores_variable_debt.1 [mkReserve "A" 0 true false 1 2 3] (mkBase 1 1 0)
      0 (mkReserve "A" 0 true false 1 2 3) (Val.i 9) (by simp [mkReserve]),
    tvl_ignores_variable_debt.2 [] [] "A" 0 1 2 3 1 1 0 one_ne_zero⟩

/-- C2: the single-record arithmetic of the spec: decimals 6, liquidity
1000000 (normalized 1), price 50000, unit 100000, price decimals 0, raw
price 2: the value in reference currency is 1/2, the USD value is 1, and
the total over that one record is 1. -/
theorem tvl_single_record_example :
    (1000000 : ℚ) / (10 : ℚ) ^ (6 : ℤ) * 50000 / 100000 = 1 / 2
    ∧ (1 / 2 : ℚ) * refPriceInUsd 2 0 = 1
    ∧ processReserve (Val.i 100000) (refPriceInUsd 2 0)
        (mkReserve "X" 6 true false 1000000 0 50000) = .contrib 1
    ∧ calculate_total_tvl [mkReserve "X" 6 true false 1000000 0 50000]
        (mkBase 100000 2 0) = .ok 1 := by
  refine ⟨by norm_num, by norm_num [refPriceInUsd], ?_, ?_⟩
  · rw [processReserve_mkReserve_elig 100000 (by norm_num)]
    norm_num [refPriceInUsd]
  · rw [calculate_total_tvl_ok _ _ _ (decodeBase_mkBase 100000 2 0),
      tvlFold_cons, tvlFold_nil, processReserve_mkReserve_elig 100000 (by norm_num)]
    norm_num [refPriceInUsd, RecordOutcome.value]

/-- C3: the price normalization branches exactly on `priceDecimals > 0`:
with price decimals 0 the computed USD price is exactly the float cast of
the raw price, for every raw integer price and any values at the other
positions; with price decimals 8 and raw price 100000000 it is exactly 1. -/
theorem price_normalization_branch :
    (∀ (u x : Val) (rawPrice : ℤ),
        decodeBase [u, .i rawPrice, x, .i 0] = .ok ⟨u, (rawPrice : ℚ)⟩)
    ∧ (∀ (u x : Val),
        decodeBase [u, .i 100000000, x, .i 8] = .ok ⟨u, 1⟩) := by
  constructor
  · intro u x rawPrice
    simp [decodeBase, pyIndex, Val.gtZero, Val.pyFloat, bind, Except.bind]
  · intro u x
    simp [decodeBase, pyIndex, Val.gtZero, Val.toNum, Val.toInt, bind, Except.bind]
    norm_num

/-- C4: a record whose `isActive` field is falsy or whose `isFrozen` field
is truthy is skipped by the eligibility gate — not counted as a failure —
and contributes exactly 0 to the returned total, whatever its other
fields and whatever the rest of the input. -/
theorem inactive_or_frozen_contributes_zero (u : Val) (p : ℚ) (r : List Val)
    (act froz : Val) (hlen : 23 ≤ r.length)
    (hact : r[10]? = some act) (hfroz : r[11]? = some froz)
    (helig : act.truthy = false ∨ froz.truthy = true) :
    processReserve u p r = .skippedIneligible
    ∧ ∀ (pre post : List (List Val)) (bci : List Val),
        calculate_total_tvl (pre ++ r :: post) bci
          = calculate_total_tvl (pre ++ post) bci := by
  have hgate : ∀ (u2 : Val) (p2 : ℚ), processReserve u2 p2 r = .skippedIneligible := by
    intro u2 p2
    unfold processReserve
    rw [List.getElem?_eq_getElem (show 2 < r.length by omega),
      List.getElem?_eq_getElem (show 3 < r.length by omega), hact, hfroz,
      List.getElem?_eq_getElem (show 20 < r.length by omega),
      List.getElem?_eq_getElem (show 21 < r.length by omega),
      List.getElem?_eq_getElem (show 22 < r.length by omega)]
    unfold processFields
    rcases helig with h | h <;> simp [h]
  refine ⟨hgate u p, ?_⟩
  intro pre post bci
  cases hd : decodeBase bci with
  | error e =>
    rw [calculate_total_tvl_err _ _ _ hd, calculate_total_tvl_err _ _ _ hd]
  | ok d =>
    rw [calculate_total_tvl_ok _ _ _ hd, calculate_total_tvl_ok _ _ _ hd,
      tvlFold_middle, hgate d.unit d.priceInUsd]
    simp [RecordOutcome.value]

/-- Witness for C4: an inactive record among one other record. -/
theorem inactive_or_frozen_contributes_zero_witness :
    processReserve (Val.i 1) 1 (mkReserve "A" 0 false false 1 2 3)
      = .skippedIneligible
    ∧ calculate_total_tvl
        ([mkReserve "B" 0 true false 1 0 1] ++ mkReserve "A" 0 false false 1 2 3 :: [])
        (mkBase 1 1 0)
      = calculate_total_tvl ([mkReserve "B" 0 true false 1 0 1] ++ [])
        (mkBase 1 1 0) := by
  have h := inactive_or_frozen_contributes_zero (Val.i 1) 1
    (mkReserve "A" 0 false false 1 2 3) (Val.b false) (Val.b false)
    (by decide) rfl rfl (Or.inl rfl)
  exact ⟨h.1, h.2 [mkReserve "B" 0 true false 1 0 1] [] (mkBase 1 1 0)⟩

/-- C5: with a zero market reference currency unit, every eligible
well-formed record hits the zero-unit guard and is skipped before the
division by the unit, and the returned total is exactly `.ok 0` — the
reducer does not raise. -/
theorem zero_reference_unit_guard :
    (∀ (p : ℚ) (sym : String) (dec liq debt price : ℤ),
        processReserve (Val.i 0) p (mkReserve sym dec true false liq debt price)
          = .skippedZeroUnit)
    ∧ (∀ (reserves : List (List Val)) (bci : List Val) (d : TvlDecoded),
        decodeBase bci = .ok d → d.unit = Val.i 0 →
        calculate_total_tvl reserves bci = .ok 0) := by
  refine ⟨processReserve_mkReserve_zeroUnit, ?_⟩
  intro reserves bci d hd hu
  rw [calculate_total_tvl_ok _ _ _ hd,
    tvlFold_eq_zero_of_unit_zero d.unit (by rw [hu]; rfl)]

/-- Witness for C5: two eligible records under unit 0 total to 0. -/
theorem zero_reference_unit_guard_witness :
    processReserve (Val.i 0) 1 (mkReserve "A" 6 true false 5 0 7)
      = .skippedZeroUnit
    ∧ calculate_total_tvl
        [mkReserve "A" 6 true false 5 0 7, mkReserve "B" 0 true false 1 0 1]
        (mkBase 0 3 0) = .ok 0 :=
  ⟨zero_reference_unit_guard.1 1 "A" 6 5 0 7,
    zero_reference_unit_guard.2
      [mkReserve "A" 6 true false 5 0 7, mkReserve "B" 0 true false 1 0 1]
      (mkBase 0 3 0) ⟨Val.i 0, refPriceInUsd 3 0⟩ (decodeBase_mkBase 0 3 0) rfl⟩

/-- C6: a record truncated below the highest index the reducer reads
(position 22) makes that record fail — the exception is caught, the
record alone contributes 0, the run does not abort, and the total is the
total over the remaining records in input order. -/
theorem malformed_record_isolation :
    (∀ (u : Val) (p : ℚ) (r : List Val), r.length ≤ 22 →
        processReserve u p r = .failed)
    ∧ (∀ (pre post : List (List Val)) (bci : List Val) (m : List Val),
        m.length ≤ 22 →
        calculate_total_tvl (pre ++ m :: post) bci
          = calculate_total_tvl (pre ++ post) bci) := by
  have hfail : ∀ (u : Val) (p : ℚ) (r : List Val), r.length ≤ 22 →
      processReserve u p r = .failed := by
    intro u p r hlen
    have h22 : r[22]? = none := List.getElem?_eq_none (by omega)
    unfold processReserve
    rw [h22]
    cases r[2]? <;> cases r[3]? <;> cases r[10]? <;> cases r[11]? <;>
      cases r[20]? <;> cases r[21]? <;> rfl
  refine ⟨hfail, ?_⟩
  intro pre post bci m hlen
  cases hd : decodeBase bci with
  | error e =>
    rw [calculate_total_tvl_err _ _ _ hd, calculate_total_tvl_err _ _ _ hd]
  | ok d =>
    rw [calculate_total_tvl_ok _ _ _ hd, calculate_total_tvl_ok _ _ _ hd,
      tvlFold_middle, hfail d.unit d.priceInUsd m hlen]
    simp [RecordOutcome.value]

/-- Witness for C6: a 1-element truncated record among a well-formed one. -/
theorem malformed_record_isolation_witness :
    processReserve (Val.i 1) 1 [Val.s "T"] = .failed
    ∧ calculate_total_tvl
        ([mkReserve "B" 0 true false 1 0 1] ++ [Val.s "T"] :: [])
        (mkBase 1 1 0)
      = calculate_total_tvl ([mkReserve "B" 0 true false 1 0 1] ++ [])
        (mkBase 1 1 0) :=
  ⟨malformed_record_isolation.1 (Val.i 1) 1 [Val.s "T"] (by simp),
    malformed_record_isolation.2 [mkReserve "B" 0 true false 1 0 1] []
      (mkBase 1 1 0) [Val.s "T"] (by simp)⟩

/-- C7: the fetch validation rejects every response whose length is not
exactly 2 with a fatal schema mismatch — so nothing downstream (no total)
is ever computed from it — and splits a 2-element response into the pair
`(reserves, baseCurrencyInfo)`. -/
theorem response_schema_validation :
    (∀ (α β : Type) (l : List α) (k : α × α → Except FetchError β),
        l.length ≠ 2 →
        (validateReservesResponse l >>= k) = .error .schemaMismatch)
    ∧ (∀ (α : Type) (a b : α), validateReservesResponse [a, b] = .ok (a, b)) := by
  constructor
  · intro α β l k hlen
    match l with
    | [] => rfl
    | [a] => rfl
    | [a, b] => exact absurd rfl hlen
    | a :: b :: c :: t => rfl
  · intro α a b
    rfl

/-- Witness for C7: a length-1 response is rejected before any total. -/
theorem response_schema_validation_witness :
    (validateReservesResponse [(0 : ℕ)] >>= fun p => Except.ok p.1)
      = .error .schemaMismatch
    ∧ validateReservesResponse [(1 : ℕ), 2] = .ok (1, 2) :=
  ⟨response_schema_validation.1 ℕ ℕ [0] (fun p => Except.ok p.1) (by simp),
    response_schema_validation.2 ℕ 1 2⟩

/-- C8 counterexample: the claim says the reducer raises exactly on a
malformed `baseCurrencyInfo` (one lacking the 4 expected positions with
numeric content).  But an info whose position 0 (the unit) is the
non-numeric string "x" — malformed in that sense — does not make the
reducer raise: the unit is only touched inside the per-record `try`, and
the reducer returns `.ok 0`. -/
theorem reducer_accepts_nonnumeric_unit :
    (Val.s "x").toNum = none
    ∧ calculate_total_tvl [] [Val.s "x", Val.i 1, Val.i 0, Val.i 0] = .ok 0 := by
  refine ⟨rfl, ?_⟩
  simp [calculate_total_tvl, decodeBase, pyIndex, Val.gtZero, Val.pyFloat,
    tvlFold, bind, Except.bind]

/-- C8 as amended, the claimed equivalence dropped: (a) for every
reserves list whatsoever, a `baseCurrencyInfo` with the four expected
positions holding numeric (non-string) content never makes the reducer
raise — it returns a float total; (b) a `baseCurrencyInfo` of wrong arity
(fewer than the four expected positions) makes the reducer raise an
`IndexError` before any per-record work, again for every reserves list.
The two directions do not form an equivalence: non-numeric content does
not always raise (see the counterexample, and a float-parsable string
price under non-positive price decimals is likewise accepted), and right
arity does not preclude raising (a string at the price-decimals position
raises). -/
theorem reducer_total_given_wellformed_base :
    (∀ (reserves : List (List Val)) (bci : List Val),
        4 ≤ bci.length →
        (bci[0]?.bind Val.toNum).isSome = true →
        (bci[1]?.bind Val.toNum).isSome = true →
        (bci[3]?.bind Val.toNum).isSome = true →
        ∃ q, calculate_total_tvl reserves bci = .ok q)
    ∧ (∀ (reserves : List (List Val)) (bci : List Val),
        bci.length < 4 →
        calculate_total_tvl reserves bci = .error .indexError) := by
  constructor
  · intro reserves bci h4 h0 h1 h3
    rcases bci with _ | ⟨v0, _ | ⟨v1, _ | ⟨v2, _ | ⟨v3, rest⟩⟩⟩⟩
    · simp at h4
    · simp at h4
    · simp at h4
    · simp at h4
    · have hv1 : v1.toNum.isSome = true := by simpa using h1
      have hv3 : v3.toNum.isSome = true := by simpa using h3
      rcases decodeBase_ok_of_numeric v0 v1 v2 v3 rest hv1 hv3 with ⟨d, hd⟩
      exact ⟨_, calculate_total_tvl_ok _ _ _ hd⟩
  · intro reserves bci hlen
    exact calculate_total_tvl_err _ _ _ (decodeBase_short bci hlen)

/-- Witness for C8 as amended: a numeric 4-tuple never raises; a 1-tuple
raises before any per-record work. -/
theorem reducer_total_given_wellformed_base_witness :
    (∃ q, calculate_total_tvl [[]] (mkBase 1 2 0) = .ok q)
    ∧ calculate_total_tvl [[]] [Val.i 5] = .error .indexError :=
  ⟨reducer_total_given_wellformed_base.1 [[]] (mkBase 1 2 0)
      (by decide) (by decide) (by decide) (by decide),
    reducer_total_given_wellformed_base.2 [[]] [Val.i 5] (by decide)⟩

/-- C9: the reduction is deterministic — it is a pure function of the
pair `(reserves, baseCurrencyInfo)`, so two runs on identical inputs
return identical totals. -/
theorem reduction_deterministic (rs1 rs2 : List (List Val))
    (bci1 bci2 : List Val) (hr : rs1 = rs2) (hb : bci1 = bci2) :
    calculate_total_tvl rs1 bci1 = calculate_total_tvl rs2 bci2 := by
  rw [hr, hb]

/-- Witness for C9. -/
theorem reduction_deterministic_witness :
    calculate_total_tvl [mkReserve "A" 0 true false 1 2 3] (mkBase 1 1 0)
      = calculate_total_tvl [mkReserve "A" 0 true false 1 2 3] (mkBase 1 1 0) :=
  reduction_deterministic [mkReserve "A" 0 true false 1 2 3]
    [mkReserve "A" 0 true false 1 2 3] (mkBase 1 1 0) (mkBase 1 1 0) rfl rfl

/-- C10: on an empty reserves list with any decodable base-currency info,
the reducer returns exactly the accumulator's initial value 0 without
raising. -/
theorem empty_reserves_total_zero (bci : List Val) (d : TvlDecoded)
    (hd : decodeBase bci = .ok d) :
    calculate_total_tvl [] bci = .ok 0 := by
  rw [calculate_total_tvl_ok _ _ _ hd, tvlFold_nil]

/-- Witness for C10. -/
theorem empty_reserves_total_zero_witness :
    calculate_total_tvl [] (mkBase 100000000 100000000 8) = .ok 0 :=
  empty_reserves_total_zero (mkBase 100000000 100000000 8)
    ⟨Val.i 100000000, refPriceInUsd 100000000 8⟩
    (decodeBase_mkBase 100000000 100000000 8)

end AaveTvl
